import Mathlib

/-!
Shallow embedding of the CPF checksum engine and batch processor of
`cpf-cli-go` (package `cpf` plus the batch file processor), together with
theorems settling the specification claims.

Strings are modelled as `List Char` (Go strings here are ASCII digit
strings and separators, so rune/byte distinctions do not arise on the
values these functions construct or inspect).
-/

namespace CpfCli

/-- Equality on `Except` values is decidable componentwise; needed to
state concrete test vectors about `FormatCPF` and `GenerateCPF`. -/
instance {ε α : Type} [DecidableEq ε] [DecidableEq α] :
    DecidableEq (Except ε α) := fun a b =>
  match a, b with
  | .error e, .error f =>
    if h : e = f then .isTrue (by rw [h]) else .isFalse (by simp [h])
  | .error _, .ok _ => .isFalse (by simp)
  | .ok _, .error _ => .isFalse (by simp)
  | .ok x, .ok y =>
    if h : x = y then .isTrue (by rw [h]) else .isFalse (by simp [h])

/-- Digit-accumulating loop behind `itoa`, structurally recursive on a
fuel argument so that it evaluates by kernel reduction. -/
def itoaCore : Nat → Nat → List Char → List Char
  | 0, _, acc => acc
  | fuel + 1, n, acc =>
    let d := Char.ofNat (48 + n % 10)
    if n < 10 then d :: acc else itoaCore fuel (n / 10) (d :: acc)

/-- Models Go `strconv.Itoa` on natural numbers: the decimal digit
characters of `n` (most significant first). -/
def itoa (n : Nat) : List Char := itoaCore (n + 1) n []

/-- Models Go `strconv.Atoi` applied to a one-character string, as done in
`ValidateCPF` for each of the first nine characters: a decimal digit
character parses to its value, anything else is an error. -/
def atoiChar (c : Char) : Option Nat :=
  if c.isDigit then some (c.toNat - 48) else none

/-- Embeds `UnformatCPF`: removes every non-digit character
(the Go code replaces the regexp class of non-digits by the empty
string). -/
def UnformatCPF (cpfStr : List Char) : List Char :=
  cpfStr.filter Char.isDigit

/-- Embeds `IsRepeated`: true iff the string is non-empty and every
character equals the first. -/
def IsRepeated (s : List Char) : Bool :=
  match s with
  | [] => false
  | c :: rest => rest.all (fun x => x == c)

/-- Embeds `FormatCPF`: strips non-digits, requires exactly 11 digits,
and groups them as `DDD.DDD.DDD-DD`. -/
def FormatCPF (cpfStr : List Char) : Except String (List Char) :=
  let digits := UnformatCPF cpfStr
  if digits.length ≠ 11 then
    .error "invalid CPF number (must have 11 digits)"
  else
    .ok (digits.take 3 ++ '.' :: (digits.drop 3).take 3 ++
         '.' :: (digits.drop 6).take 3 ++ '-' :: digits.drop 9)

/-- Embeds the internal weighted sum `calc` of the Go source (renamed
because `calc` is a Lean keyword), generalized over the running index:
`calcFrom i nums` is the total contributed by `nums` when its head sits at
loop index `i`, each element weighted by `9 - (index mod 10)`. The Go
function is `calcFrom 0`. -/
def calcFrom (i : Nat) (nums : List Nat) : Nat :=
  match nums with
  | [] => 0
  | n :: rest => n * (9 - (i % 10)) + calcFrom (i + 1) rest

/-- The Go `calc` function: weighted sum starting at index 0. -/
def calcTotal (nums : List Nat) : Nat := calcFrom 0 nums

/-- Embeds `getCD`: the two check digits computed from the first 9 digits
of a CPF; errors when the input length is not 9. -/
def getCD (digits9 : List Nat) : Except String (Nat × Nat) :=
  if digits9.length ≠ 9 then
    .error ("invalid digits length: expected 9, got " ++ Nat.repr digits9.length)
  else
    let reversed := digits9.reverse
    let cd1 := calcTotal reversed % 11 % 10
    let cd2 := (calcTotal (0 :: reversed) + cd1 * 9) % 11 % 10
    .ok (cd1, cd2)

/-- Parses a list of characters into decimal digits, mirroring the Go loop
in `ValidateCPF` that runs `strconv.Atoi` on each character and returns
false on the first failure. -/
def digitsOf : List Char → Option (List Nat)
  | [] => some []
  | c :: rest =>
    match atoiChar c, digitsOf rest with
    | some d, some ds => some (d :: ds)
    | _, _ => none

/-- Embeds `ValidateCPF`: normalizes, rejects wrong length and repeated
strings, optionally stops after the structural check (`byLength`), else
compares the 2-character suffix with the check digits recomputed from the
first 9 digits (printed as `%d%d`). -/
def ValidateCPF (cpfStr : List Char) (byLength : Bool) : Bool :=
  let unformatted := UnformatCPF cpfStr
  if unformatted.length ≠ 11 then false
  else if IsRepeated unformatted then false
  else if byLength then true
  else
    match digitsOf (unformatted.take 9) with
    | none => false
    | some digits9 =>
      match getCD digits9 with
      | .error _ => false
      | .ok cd => decide (unformatted.drop 9 = itoa cd.1 ++ itoa cd.2)

/-- Embeds `GenerateCPF`, with the random source made explicit: `draw i`
is the value returned by the `i`-th call to `cryptoRandInt 10` (9 draws
for the significant digits; draws 9 and 10 are used for the check digits
when `invalid` is requested). The source itself is assumed total here;
IO-level failure of `crypto/rand` is outside the embedding. -/
def GenerateCPF (formatted invalid : Bool) (draw : Nat → Nat) :
    Except String (List Char) :=
  let digits9 := (List.range 9).map draw
  let dvE : Except String (Nat × Nat) :=
    if invalid then .ok (draw 9, draw 10) else getCD digits9
  match dvE with
  | .error _ => .error "failed to generate check digits"
  | .ok dv =>
    let cpfStr := ((digits9 ++ [dv.1, dv.2]).map itoa).flatten
    if formatted then
      match FormatCPF cpfStr with
      | .error _ => .error "failed to format CPF"
      | .ok result => .ok result
    else
      .ok cpfStr

/-- Embeds the `CPFResult` record (Go struct with JSON tags
`cpf`, `valid,omitempty`, `error,omitempty`, `original,omitempty`).
Fields not set by a Go struct literal hold their zero value
(`false` / empty string). -/
structure CPFResult where
  cpf : List Char
  valid : Bool
  error : List Char
  original : List Char
deriving DecidableEq

/-- Embeds `ValidateProcessor`: records the full-checksum validation
verdict; `Error` is left at its zero value. -/
def ValidateProcessor (cpf : List Char) : CPFResult :=
  { cpf := cpf, valid := ValidateCPF cpf false, error := [], original := cpf }

/-- Embeds `FormatProcessor`: on formatting failure the error message is
captured in the record; on success the formatted value is stored.
`Valid` is left at its zero value in both branches. -/
def FormatProcessor (cpf : List Char) : CPFResult :=
  match FormatCPF cpf with
  | .error e => { cpf := cpf, valid := false, error := e.data, original := cpf }
  | .ok formatted =>
    { cpf := formatted, valid := false, error := [], original := cpf }

/-- Whitespace predicate used by Go `strings.TrimSpace` restricted to the
Latin-1 range (space, tab, newline, vertical tab, form feed, carriage
return, next line, no-break space). -/
def isSpaceGo (c : Char) : Bool :=
  c == ' ' || c == '\t' || c == '\n' || c == '\x0b' || c == '\x0c' ||
  c == '\r' || c == Char.ofNat 133 || c == Char.ofNat 160

/-- Models Go `strings.TrimSpace`: drops leading and trailing
whitespace. -/
def trimSpace (s : List Char) : List Char :=
  ((s.dropWhile isSpaceGo).reverse.dropWhile isSpaceGo).reverse

/-- Embeds the line-processing loop of `ProcessFile`, abstracted over the
already-read sequence of lines (file IO is outside the embedding): each
line is trimmed, blank lines are skipped, every other line contributes the
processor's record, in input order. -/
def ProcessLines (lines : List (List Char))
    (processFunc : List Char → CPFResult) : List CPFResult :=
  match lines with
  | [] => []
  | text :: rest =>
    let line := trimSpace text
    if line = [] then ProcessLines rest processFunc
    else processFunc line :: ProcessLines rest processFunc

/-- Embeds the field-presence behavior of Go `encoding/json` for the
`CPFResult` struct tags: `cpf` is always serialized; a field tagged
`omitempty` is omitted exactly when its value is the zero value of its
type (`false` for `bool`, the empty string for `string`). -/
def marshalledFieldNames (r : CPFResult) : List String :=
  ["cpf"] ++ (if r.valid then ["valid"] else []) ++
  (if r.error ≠ [] then ["error"] else []) ++
  (if r.original ≠ [] then ["original"] else [])

/-- The weighted sum as the specification states it:
`Σ digit[i] * (9 - (i mod 10))` over the 0-indexed positions. -/
def weightedSum (s : List Nat) : Nat :=
  ∑ i : Fin s.length, s.get i * (9 - (i.val % 10))

/-- The 3-3-3-2 grouping applied by `FormatCPF` to an 11-digit string. -/
def groupCPF (digits : List Char) : List Char :=
  digits.take 3 ++ '.' :: (digits.drop 3).take 3 ++
  '.' :: (digits.drop 6).take 3 ++ '-' :: digits.drop 9

/-- The character printed for a single decimal digit. -/
def digitChar (d : Nat) : Char := Char.ofNat (48 + d)

lemma itoa_digit {n : Nat} (h : n < 10) : itoa n = [digitChar n] := by
  simp [itoa, itoaCore, h, Nat.mod_eq_of_lt h, digitChar]

lemma isDigit_digitChar {n : Nat} (h : n < 10) :
    (digitChar n).isDigit = true := by
  interval_cases n <;> decide

lemma atoiChar_digitChar {n : Nat} (h : n < 10) :
    atoiChar (digitChar n) = some n := by
  interval_cases n <;> decide

lemma digitChar_inj {m n : Nat} (hm : m < 10) (hn : n < 10)
    (h : digitChar m = digitChar n) : m = n := by
  interval_cases m <;> interval_cases n <;> simp_all <;>
    exact absurd h (by decide)

lemma flatten_itoa {l : List Nat} (h : ∀ d ∈ l, d < 10) :
    (l.map itoa).flatten = l.map digitChar := by
  induction l with
  | nil => rfl
  | cons a t ih =>
    have ha : a < 10 := h a (by simp)
    simp [itoa_digit ha, ih (fun d hd => h d (by simp [hd]))]

lemma unformat_of_all_digits {s : List Char}
    (h : ∀ c ∈ s, c.isDigit = true) : UnformatCPF s = s :=
  List.filter_eq_self.mpr h

lemma mem_map_digitChar_isDigit {l : List Nat} (h : ∀ d ∈ l, d < 10) :
    ∀ c ∈ l.map digitChar, c.isDigit = true := by
  intro c hc
  obtain ⟨d, hd, rfl⟩ := List.mem_map.mp hc
  exact isDigit_digitChar (h d hd)

lemma digitsOf_map_digitChar {l : List Nat} (h : ∀ d ∈ l, d < 10) :
    digitsOf (l.map digitChar) = some l := by
  induction l with
  | nil => rfl
  | cons a t ih =>
    have ha : a < 10 := h a (by simp)
    simp [digitsOf, atoiChar_digitChar ha,
      ih (fun d hd => h d (by simp [hd]))]

lemma unformat_idem (s : List Char) :
    UnformatCPF (UnformatCPF s) = UnformatCPF s :=
  unformat_of_all_digits (fun _ hc => List.of_mem_filter hc)

lemma validate_unformat (s : List Char) (b : Bool) :
    ValidateCPF s b = ValidateCPF (UnformatCPF s) b := by
  simp only [ValidateCPF, unformat_idem]

lemma getCD_ok {ds : List Nat} (h : ds.length = 9) :
    getCD ds = .ok (calcTotal ds.reverse % 11 % 10,
      (calcTotal (0 :: ds.reverse) + calcTotal ds.reverse % 11 % 10 * 9)
        % 11 % 10) := by
  simp [getCD, h]

lemma take_drop_regroup (l : List Char) :
    l.take 3 ++ ((l.drop 3).take 3 ++ ((l.drop 6).take 3 ++ l.drop 9)) = l := by
  have h9 : l.drop 9 = (l.drop 6).drop 3 := by
    rw [List.drop_drop]
  have h6 : (l.drop 6).take 3 ++ l.drop 9 = l.drop 6 := by
    rw [h9, List.take_append_drop]
  have h63 : l.drop 6 = (l.drop 3).drop 3 := by
    rw [List.drop_drop]
  have h3 : (l.drop 3).take 3 ++ l.drop 6 = l.drop 3 := by
    rw [h63, List.take_append_drop]
  rw [h6, h3, List.take_append_drop]

lemma unformat_groupCPF {d : List Char}
    (h : ∀ c ∈ d, c.isDigit = true) : UnformatCPF (groupCPF d) = d := by
  have hsub : ∀ (t : List Char), t ⊆ d → List.filter Char.isDigit t = t := by
    intro t ht
    exact List.filter_eq_self.mpr (fun c hc => h c (ht hc))
  have hdot : ('.' : Char).isDigit = false := by decide
  have hdash : ('-' : Char).isDigit = false := by decide
  simp only [groupCPF, UnformatCPF, List.filter_append, List.filter_cons,
    hdot, hdash, Bool.false_eq_true, if_neg, ite_false]
  rw [hsub _ (List.take_subset 3 d),
    hsub _ (fun c hc => List.drop_subset 3 d (List.take_subset 3 _ hc)),
    hsub _ (fun c hc => List.drop_subset 6 d (List.take_subset 3 _ hc)),
    hsub _ (List.drop_subset 9 d)]
  simp only [List.append_assoc]
  exact take_drop_regroup d

lemma formatCPF_of_digits {s : List Char}
    (hd : ∀ c ∈ s, c.isDigit = true) (hlen : s.length = 11) :
    FormatCPF s = .ok (groupCPF s) := by
  simp [FormatCPF, unformat_of_all_digits hd, hlen, groupCPF]

lemma mem_append_two {ds : List Nat} {d1 d2 : Nat}
    (hds : ∀ d ∈ ds, d < 10) (h1 : d1 < 10) (h2 : d2 < 10) :
    ∀ d ∈ ds ++ [d1, d2], d < 10 := by
  intro d hd
  simp at hd
  rcases hd with h | h | h
  · exact hds d h
  · subst h; exact h1
  · subst h; exact h2

lemma validate_cd {ds : List Nat} {d1 d2 : Nat} (hlen : ds.length = 9)
    (hds : ∀ d ∈ ds, d < 10) (h1 : d1 < 10) (h2 : d2 < 10)
    (hcd : getCD ds = .ok (d1, d2)) :
    ValidateCPF ((ds ++ [d1, d2]).map digitChar) false
      = !IsRepeated ((ds ++ [d1, d2]).map digitChar) := by
  have hall : ∀ d ∈ ds ++ [d1, d2], d < 10 := mem_append_two hds h1 h2
  have hdig := mem_map_digitChar_isDigit hall
  have hU : UnformatCPF ((ds ++ [d1, d2]).map digitChar)
      = (ds ++ [d1, d2]).map digitChar := unformat_of_all_digits hdig
  have hL : ((ds ++ [d1, d2]).map digitChar).length = 11 := by
    simp [hlen]
  have htake : ((ds ++ [d1, d2]).map digitChar).take 9 = ds.map digitChar := by
    rw [List.map_append]
    exact List.take_left' (by simp [hlen])
  have hdrop : ((ds ++ [d1, d2]).map digitChar).drop 9
      = [digitChar d1, digitChar d2] := by
    rw [List.map_append]
    exact List.drop_left' (by simp [hlen])
  simp only [ValidateCPF, hU, hL, htake, hdrop,
    digitsOf_map_digitChar hds, hcd, itoa_digit h1, itoa_digit h2]
  cases hrep : IsRepeated ((ds ++ [d1, d2]).map digitChar) <;> simp [hrep]

lemma generateCPF_eq (invalid : Bool) (draw : Nat → Nat)
    (h10 : ∀ i, draw i < 10) :
    ∃ d1 d2, d1 < 10 ∧ d2 < 10 ∧
      (invalid = false → getCD ((List.range 9).map draw) = .ok (d1, d2)) ∧
      GenerateCPF false invalid draw =
        .ok (((List.range 9).map draw ++ [d1, d2]).map digitChar) ∧
      GenerateCPF true invalid draw =
        .ok (groupCPF (((List.range 9).map draw ++ [d1, d2]).map digitChar)) := by
  have hlen : ((List.range 9).map draw).length = 9 := by simp
  have hmem : ∀ d ∈ (List.range 9).map draw, d < 10 := by
    intro d hd
    obtain ⟨i, _, rfl⟩ := List.mem_map.mp hd
    exact h10 i
  have main : ∀ d1 d2, d1 < 10 → d2 < 10 →
      (if invalid then Except.ok (α := Nat × Nat) (draw 9, draw 10)
        else getCD ((List.range 9).map draw)) = .ok (d1, d2) →
      GenerateCPF false invalid draw =
        .ok (((List.range 9).map draw ++ [d1, d2]).map digitChar) ∧
      GenerateCPF true invalid draw =
        .ok (groupCPF (((List.range 9).map draw ++ [d1, d2]).map digitChar)) := by
    intro d1 d2 h1 h2 hdv
    have hall := mem_append_two hmem h1 h2
    have hflat : (((List.range 9).map draw ++ [d1, d2]).map itoa).flatten
        = ((List.range 9).map draw ++ [d1, d2]).map digitChar :=
      flatten_itoa hall
    have hfmt : FormatCPF (((List.range 9).map draw ++ [d1, d2]).map digitChar)
        = .ok (groupCPF (((List.range 9).map draw ++ [d1, d2]).map digitChar)) :=
      formatCPF_of_digits (mem_map_digitChar_isDigit hall) (by simp [hlen])
    constructor
    · simp only [GenerateCPF, hdv, hflat]
      simp
    · simp only [GenerateCPF, hdv, hflat, hfmt]
      simp [hfmt]
  cases invalid
  · exact ⟨calcTotal ((List.range 9).map draw).reverse % 11 % 10, _,
      Nat.mod_lt _ (by omega), Nat.mod_lt _ (by omega),
      fun _ => getCD_ok hlen,
      main _ _ (Nat.mod_lt _ (by omega)) (Nat.mod_lt _ (by omega))
        (by simp [getCD_ok hlen])⟩
  · exact ⟨draw 9, draw 10, h10 9, h10 10, by simp,
      main _ _ (h10 9) (h10 10) (by simp)⟩

lemma isRepeated_true_all {c : Char} {t : List Char}
    (h : IsRepeated (c :: t) = true) : ∀ x ∈ t, x = c := by
  intro x hx
  simp only [IsRepeated] at h
  have hx2 := List.all_eq_true.mp h x hx
  simpa using hx2

lemma range9_eq : List.range 9 = [0, 1, 2, 3, 4, 5, 6, 7, 8] := by decide

lemma isRepeated_generated_false {draw : Nat → Nat}
    (h10 : ∀ i, draw i < 10)
    (hne : ¬ ∀ i, i < 9 → draw i = draw 0) (d1 d2 : Nat) :
    IsRepeated (((List.range 9).map draw ++ [d1, d2]).map digitChar)
      = false := by
  push_neg at hne
  obtain ⟨i, hi, hid⟩ := hne
  rw [range9_eq]
  simp only [List.map_cons, List.map_nil, List.cons_append, List.nil_append]
  cases hrep : IsRepeated (digitChar (draw 0) :: (digitChar (draw 1) ::
      (digitChar (draw 2) :: (digitChar (draw 3) :: (digitChar (draw 4) ::
      (digitChar (draw 5) :: (digitChar (draw 6) :: (digitChar (draw 7) ::
      (digitChar (draw 8) :: [digitChar d1, digitChar d2]))))))))) with
  | false => rfl
  | true =>
    exfalso
    have hall := isRepeated_true_all hrep
    interval_cases i
    · exact hid rfl
    · exact hid (digitChar_inj (h10 1) (h10 0) (hall _ (by simp)))
    · exact hid (digitChar_inj (h10 2) (h10 0) (hall _ (by simp)))
    · exact hid (digitChar_inj (h10 3) (h10 0) (hall _ (by simp)))
    · exact hid (digitChar_inj (h10 4) (h10 0) (hall _ (by simp)))
    · exact hid (digitChar_inj (h10 5) (h10 0) (hall _ (by simp)))
    · exact hid (digitChar_inj (h10 6) (h10 0) (hall _ (by simp)))
    · exact hid (digitChar_inj (h10 7) (h10 0) (hall _ (by simp)))
    · exact hid (digitChar_inj (h10 8) (h10 0) (hall _ (by simp)))

lemma validate_generated_aux {draw : Nat → Nat} (h10 : ∀ i, draw i < 10)
    (hne : ¬ ∀ i, i < 9 → draw i = draw 0) (formatted : Bool)
    (v : List Char) (hv : GenerateCPF formatted false draw = .ok v) :
    ValidateCPF v false = true := by
  obtain ⟨d1, d2, h1, h2, hcd, hraw, hfmtd⟩ := generateCPF_eq false draw h10
  have hcd2 := hcd rfl
  have hlen : ((List.range 9).map draw).length = 9 := by simp
  have hmem : ∀ d ∈ (List.range 9).map draw, d < 10 := by
    intro d hd
    obtain ⟨i, _, rfl⟩ := List.mem_map.mp hd
    exact h10 i
  have hall := mem_append_two hmem h1 h2
  have hval : ValidateCPF
      (((List.range 9).map draw ++ [d1, d2]).map digitChar) false = true := by
    rw [validate_cd hlen hmem h1 h2 hcd2,
      isRepeated_generated_false h10 hne d1 d2]
    rfl
  cases formatted
  · rw [hraw] at hv
    have hveq : v = ((List.range 9).map draw ++ [d1, d2]).map digitChar :=
      (Except.ok.inj hv).symm
    rw [hveq]
    exact hval
  · rw [hfmtd] at hv
    have hveq : v = groupCPF (((List.range 9).map draw ++ [d1, d2]).map
        digitChar) := (Except.ok.inj hv).symm
    rw [hveq, validate_unformat,
      unformat_groupCPF (mem_map_digitChar_isDigit hall)]
    exact hval

lemma calcFrom_eq_sum (k : Nat) (s : List Nat) :
    calcFrom k s = ∑ i : Fin s.length, s.get i * (9 - (k + i.val) % 10) := by
  induction s generalizing k with
  | nil => simp [calcFrom]
  | cons a t ih =>
    simp only [calcFrom, List.length_cons]
    rw [Fin.sum_univ_succ, ih (k + 1)]
    have hsum : ∑ i : Fin t.length, t.get i * (9 - (k + 1 + i.val) % 10)
        = ∑ i : Fin t.length, t.get i * (9 - (k + (i.val + 1)) % 10) := by
      apply Finset.sum_congr rfl
      intro i _
      have harg : k + 1 + i.val = k + (i.val + 1) := by omega
      rw [harg]
    rw [hsum]
    simp [Fin.sum_univ_succ]

lemma calcTotal_eq_weightedSum (s : List Nat) :
    calcTotal s = weightedSum s := by
  rw [calcTotal, calcFrom_eq_sum, weightedSum]
  apply Finset.sum_congr rfl
  intro i _
  simp

lemma format_ok_aux {x : List Char} (hl : (UnformatCPF x).length = 11) :
    FormatCPF x = .ok (groupCPF (UnformatCPF x)) := by
  simp [FormatCPF, hl, groupCPF]

lemma format_err_aux {x : List Char} (hl : (UnformatCPF x).length ≠ 11) :
    FormatCPF x = .error "invalid CPF number (must have 11 digits)" := by
  simp [FormatCPF, hl]

lemma validate_lengthOnly_aux (s : List Char) :
    ValidateCPF s true =
      (decide ((UnformatCPF s).length = 11) && !IsRepeated (UnformatCPF s)) := by
  simp only [ValidateCPF]
  by_cases h : (UnformatCPF s).length = 11
  · cases hr : IsRepeated (UnformatCPF s) <;> simp [h, hr]
  · simp [h]

lemma processLines_eq_aux (lines : List (List Char))
    (f : List Char → CPFResult) :
    ProcessLines lines f
      = ((lines.map trimSpace).filter (fun l => !l.isEmpty)).map f := by
  induction lines with
  | nil => rfl
  | cons text rest ih =>
    by_cases h : trimSpace text = [] <;>
      simp [ProcessLines, h, List.filter_cons, ih]

/-! ### Claim theorems -/

/-- C1 (counterexample): the claim "every value produced by
`generate(_, invalid=false)` validates as true" fails on the code: when
all nine random draws return 1 the generator produces the repeated string
`11111111111` (its check digits are both 1), which `ValidateCPF` rejects
through the repeated-digit check. -/
theorem generate_valid_counterexample :
    GenerateCPF false false (fun _ => 1) = .ok "11111111111".data
    ∧ ValidateCPF "11111111111".data false = false := by
  constructor
  · decide
  · decide

/-- C1 (amended): for every random source yielding digits 0–9, if the nine
drawn significant digits are not all equal, then every value produced by
`GenerateCPF _ false` (formatted or not) validates as true under
full-checksum validation. (When the nine draws are all equal to `d`, the
generator produces the repeated string `d^11`, which validates false.) -/
theorem generate_valid_of_not_all_equal (draw : Nat → Nat)
    (h10 : ∀ i, draw i < 10) (hne : ¬ ∀ i, i < 9 → draw i = draw 0)
    (formatted : Bool) (v : List Char)
    (hv : GenerateCPF formatted false draw = .ok v) :
    ValidateCPF v false = true :=
  validate_generated_aux h10 hne formatted v hv

/-- C1 (witness): the draws 0,1,…,8 are not all equal; the generated value
`01234567890` validates as true. -/
theorem generate_valid_witness :
    ValidateCPF "01234567890".data false = true :=
  generate_valid_of_not_all_equal (fun i => i % 10)
    (fun i => Nat.mod_lt i (by omega))
    (fun h => absurd (h 1 (by omega)) (by decide))
    false "01234567890".data (by decide)

/-- C2: on a list of exactly 9 digits, `getCD` returns
`d1 = weightedSum(reverse digits) % 11 % 10` and
`d2 = (weightedSum(0 :: reverse digits) + d1 * 9) % 11 % 10`, where
`weightedSum s = Σ s[i] * (9 - (i mod 10))`; on any other length it
returns the invalid-length error. -/
theorem getCD_matches_spec (ds : List Nat) :
    (ds.length = 9 → getCD ds = .ok (weightedSum ds.reverse % 11 % 10,
      (weightedSum (0 :: ds.reverse) + weightedSum ds.reverse % 11 % 10 * 9)
        % 11 % 10))
    ∧ (ds.length ≠ 9 → ∃ msg, getCD ds = .error msg) := by
  constructor
  · intro h
    rw [getCD_ok h, ← calcTotal_eq_weightedSum, ← calcTotal_eq_weightedSum]
  · intro h
    exact ⟨"invalid digits length: expected 9, got " ++ Nat.repr ds.length,
      by simp [getCD, h]⟩

/-- C2 (witness): the check digits of 529982247 computed through the
specification's weighted-sum formula, and the length error on a 3-digit
input. -/
theorem getCD_matches_spec_witness :
    getCD [5, 2, 9, 9, 8, 2, 2, 4, 7] =
      .ok (weightedSum [5, 2, 9, 9, 8, 2, 2, 4, 7].reverse % 11 % 10,
        (weightedSum (0 :: [5, 2, 9, 9, 8, 2, 2, 4, 7].reverse) +
          weightedSum [5, 2, 9, 9, 8, 2, 2, 4, 7].reverse % 11 % 10 * 9)
          % 11 % 10)
    ∧ ∃ msg, getCD [1, 2, 3] = .error msg :=
  ⟨(getCD_matches_spec [5, 2, 9, 9, 8, 2, 2, 4, 7]).1 (by decide),
   (getCD_matches_spec [1, 2, 3]).2 (by decide)⟩

/-- C3 (counterexample): the claim that the serialized record contains
`valid` exactly when a validity boolean was computed, and `original`
exactly when it differs from the value, fails: for the validate record of
`111.111.111-11` the validity was computed (it is `false`), yet `valid` is
omitted by `omitempty`; and `original` equals the value yet is present. -/
theorem serialization_claim_counterexample :
    (ValidateProcessor "111.111.111-11".data).valid = false
    ∧ "valid" ∉ marshalledFieldNames (ValidateProcessor "111.111.111-11".data)
    ∧ (ValidateProcessor "111.111.111-11".data).original
        = (ValidateProcessor "111.111.111-11".data).cpf
    ∧ "original" ∈ marshalledFieldNames
        (ValidateProcessor "111.111.111-11".data) := by
  refine ⟨by decide, by decide, by decide, by decide⟩

/-- C3 (amended): the serialized representation contains `cpf` always,
`valid` exactly when the computed validity is `true`, `error` exactly when
the error string is non-empty, and `original` exactly when the original
string is non-empty (Go `omitempty` zero-value semantics); absent fields
are omitted entirely. -/
theorem marshalled_fields_amended (r : CPFResult) :
    "cpf" ∈ marshalledFieldNames r
    ∧ ("valid" ∈ marshalledFieldNames r ↔ r.valid = true)
    ∧ ("error" ∈ marshalledFieldNames r ↔ r.error ≠ [])
    ∧ ("original" ∈ marshalledFieldNames r ↔ r.original ≠ []) := by
  obtain ⟨c, v, e, o⟩ := r
  cases v <;> by_cases he : e = [] <;> by_cases ho : o = [] <;>
    simp [marshalledFieldNames, he, ho]

/-- C3 (witness): the amended field-presence contract evaluated on the
format record of the malformed input `123`: `cpf` present, `valid`
omitted, `error` present, `original` present. -/
theorem marshalled_fields_amended_witness :
    "cpf" ∈ marshalledFieldNames (FormatProcessor "123".data)
    ∧ ("valid" ∈ marshalledFieldNames (FormatProcessor "123".data)
        ↔ (FormatProcessor "123".data).valid = true)
    ∧ ("error" ∈ marshalledFieldNames (FormatProcessor "123".data)
        ↔ (FormatProcessor "123".data).error ≠ [])
    ∧ ("original" ∈ marshalledFieldNames (FormatProcessor "123".data)
        ↔ (FormatProcessor "123".data).original ≠ []) :=
  marshalled_fields_amended (FormatProcessor "123".data)

/-- C4: the fixed vectors: `529.982.247-25` validates, `111.111.111-11`
and `113.111.111-11` do not; `52998224725` formats to `529.982.247-25`;
`123` and `123abc45678` fail formatting with the invalid-length error. -/
theorem fixed_vectors :
    ValidateCPF "529.982.247-25".data false = true
    ∧ ValidateCPF "111.111.111-11".data false = false
    ∧ ValidateCPF "113.111.111-11".data false = false
    ∧ FormatCPF "52998224725".data = .ok "529.982.247-25".data
    ∧ FormatCPF "123".data = .error "invalid CPF number (must have 11 digits)"
    ∧ FormatCPF "123abc45678".data =
        .error "invalid CPF number (must have 11 digits)" := by
  refine ⟨by decide, by decide, by decide, by decide, by decide, by decide⟩

/-- C5: length-only validation returns true exactly when the digit-only
normalization has 11 digits and is not a single repeated character; in
particular `12345678901` passes and `11111111111` fails. -/
theorem validate_length_only_spec :
    (∀ s : List Char, ValidateCPF s true =
      (decide ((UnformatCPF s).length = 11) && !IsRepeated (UnformatCPF s)))
    ∧ ValidateCPF "12345678901".data true = true
    ∧ ValidateCPF "11111111111".data true = false :=
  ⟨validate_lengthOnly_aux, by decide, by decide⟩

/-- C6: `FormatCPF` fails with the invalid-length error exactly when the
digit-only normalization is not 11 digits long; on success it returns the
11 digits grouped 3-3-3-2 with literal `.` and `-` separators (whose
digit-only projection is the normalization itself), with no checksum or
repeated-digit condition. -/
theorem format_length_spec (s : List Char) :
    ((UnformatCPF s).length ≠ 11 →
      FormatCPF s = .error "invalid CPF number (must have 11 digits)")
    ∧ ((UnformatCPF s).length = 11 →
      FormatCPF s = .ok (groupCPF (UnformatCPF s))
      ∧ UnformatCPF (groupCPF (UnformatCPF s)) = UnformatCPF s) := by
  constructor
  · exact format_err_aux
  · intro h
    exact ⟨format_ok_aux h,
      unformat_groupCPF (fun c hc => List.of_mem_filter hc)⟩

/-- C6 (witness): the error branch on `123` and the success branch on the
repeated-digit input `11111111111` (formatting applies no repeated-digit
check). -/
theorem format_length_spec_witness :
    FormatCPF "123".data = .error "invalid CPF number (must have 11 digits)"
    ∧ (FormatCPF "11111111111".data =
        .ok (groupCPF (UnformatCPF "11111111111".data))
      ∧ UnformatCPF (groupCPF (UnformatCPF "11111111111".data))
          = UnformatCPF "11111111111".data) :=
  ⟨(format_length_spec "123".data).1 (by decide),
   (format_length_spec "11111111111".data).2 (by decide)⟩

/-- C7: the batch processor produces exactly one record per line that is
non-blank after trimming, in input order, each obtained by applying the
per-line operation (so a per-line failure lands in that record's error
field without aborting the rest); blank lines produce no record. The
spec's batch scenario follows, plus a format batch whose failing first
line does not stop the second. -/
theorem processLines_spec :
    (∀ (lines : List (List Char)) (f : List Char → CPFResult),
      ProcessLines lines f
        = ((lines.map trimSpace).filter (fun l => !l.isEmpty)).map f)
    ∧ (ProcessLines ["529.982.247-25".data, "111.111.111-11".data,
        "123.456.789-09".data, "".data] ValidateProcessor).map
          (fun r => r.valid) = [true, false, true]
    ∧ (ProcessLines ["529.982.247-25".data, "111.111.111-11".data,
        "123.456.789-09".data, "".data] ValidateProcessor).map
          (fun r => r.original) =
        ["529.982.247-25".data, "111.111.111-11".data, "123.456.789-09".data]
    ∧ (ProcessLines ["123".data, "52998224725".data] FormatProcessor).map
        (fun r => (r.error, r.cpf)) =
        [("invalid CPF number (must have 11 digits)".data, "123".data),
         ([], "529.982.247-25".data)] :=
  ⟨processLines_eq_aux, by decide, by decide, by decide⟩

/-- C8: assuming every draw of the random source yields a digit (the
source does not fail), `GenerateCPF` never returns an error — in
particular the internal formatting step never fails, for either value of
`formatted` and either generation mode. -/
theorem generate_no_internal_error (draw : Nat → Nat)
    (h10 : ∀ i, draw i < 10) (formatted invalid : Bool) :
    ∃ v, GenerateCPF formatted invalid draw = .ok v := by
  obtain ⟨d1, d2, h1, h2, _, hraw, hfmtd⟩ := generateCPF_eq invalid draw h10
  cases formatted
  · exact ⟨_, hraw⟩
  · exact ⟨_, hfmtd⟩

/-- C8 (witness): generation succeeds with the all-zero source in
formatted invalid mode. -/
theorem generate_no_internal_error_witness :
    ∃ v, GenerateCPF true true (fun _ => 0) = .ok v :=
  generate_no_internal_error (fun _ => 0) (fun _ => Nat.succ_pos 9) true true

/-- C9: `FormatCPF` is idempotent on its own output: whenever it succeeds
on `x` (the normalization of `x` has 11 digits), applying it to the result
succeeds and returns the result unchanged. -/
theorem format_idempotent (x y : List Char) (h : FormatCPF x = .ok y) :
    FormatCPF y = .ok y := by
  by_cases hl : (UnformatCPF x).length = 11
  · rw [format_ok_aux hl] at h
    have hy : y = groupCPF (UnformatCPF x) := (Except.ok.inj h).symm
    have hUy : UnformatCPF y = UnformatCPF x := by
      rw [hy]
      exact unformat_groupCPF (fun c hc => List.of_mem_filter hc)
    have hLy : (UnformatCPF y).length = 11 := by rw [hUy]; exact hl
    rw [format_ok_aux hLy, hUy, ← hy]
  · rw [format_err_aux hl] at h
    exact absurd h (by simp)

/-- C9 (witness): formatting the canonical vector and re-formatting its
output. -/
theorem format_idempotent_witness :
    FormatCPF "529.982.247-25".data = .ok "529.982.247-25".data :=
  format_idempotent "52998224725".data "529.982.247-25".data (by decide)

/-- C10: the validation verdict depends only on the digit-only projection
of the input: validating any string equals validating its
normalization, for both validation modes. -/
theorem validate_depends_only_on_digits (s : List Char) (b : Bool) :
    ValidateCPF s b = ValidateCPF (UnformatCPF s) b :=
  validate_unformat s b

end CpfCli
